import Mathlib

/-!
Verification of the cheatsheet-generator layout core.

This file is a shallow embedding of `src/cheatsheet_generator/models.py` and
`src/cheatsheet_generator/generator.py`:

* Python floats (margins, row heights, spacings, page sizes) are modelled as
  rationals `ℚ` (all constants appearing in the source are exactly
  representable as rationals; the reportlab page-size constants
  `LETTER = (612, 792)` and `A4 = (210*mm, 297*mm)` with `mm = 72/25.4`
  are exact rationals).
* Python dicts (which preserve insertion order) are modelled as association
  lists `List (String × β)`; updating an existing key keeps its position and
  a new key is appended at the end, exactly like CPython dict semantics.
* Reportlab flowables are modelled by the inductive types `Elem` (a single
  flowable) and `Block` (a top-level entry of the story list: either a plain
  flowable or a `KeepTogether` group).  Only the structure relevant to the
  flow-packing decisions is kept: paragraph markup and styles are abstracted
  to the carried name / hotkey list.
-/

/-- Hotkey record from `models.py`.  The constructor-time validation
(non-empty key/description/section) is not needed by the claims below, so
the bare record is embedded. -/
structure Hotkey where
  key : String
  description : String
  «section» : String
  subsection : String
deriving DecidableEq

/-- Configuration record `CheatSheetConfig` from `models.py`, with the
source's default values. -/
structure CheatSheetConfig where
  title : String := "Hotkey Cheat Sheet"
  font_size : ℕ := 7
  header_font_size : ℕ := 10
  margin : ℚ := 25
  columns : ℕ := 5
  row_height : ℚ := 11
  section_spacing : ℚ := 8
  subsection_spacing : ℚ := 4
  paper_size : String := "letter"
  orientation : String := "portrait"
  fill_top_half : Bool := false
  section_align_flush : Bool := true
  section_no_awkward_breaks : Bool := true
deriving DecidableEq

/-- The effective subsection name of a hotkey: `hotkey.subsection or "General"`
in `CheatSheet.get_sections` — the empty string is falsy in Python, so an
empty subsection falls back to the literal `"General"`. -/
def subsectionKey (h : Hotkey) : String :=
  if h.subsection = "" then "General" else h.subsection

/-- Ordered-dict update: if the key is present, apply `f` to its value in
place (first occurrence); otherwise append `(k, fresh)` at the end.  This is
exactly CPython's insertion-ordered dict `d[k] = ...` behaviour used in
`get_sections`. -/
def upsert {β : Type} (f : β → β) (fresh : β) (k : String) :
    List (String × β) → List (String × β)
  | [] => [(k, fresh)]
  | (k', v) :: rest =>
      if k' = k then (k', f v) :: rest else (k', v) :: upsert f fresh k rest

/-- One iteration of the loop body of `CheatSheet.get_sections`: create the
section bucket if absent, create the subsection bucket if absent, append the
hotkey to its subsection bucket. -/
def insertHotkey (secs : List (String × List (String × List Hotkey)))
    (h : Hotkey) : List (String × List (String × List Hotkey)) :=
  upsert (fun subs => upsert (fun hs => hs ++ [h]) [h] (subsectionKey h) subs)
    [(subsectionKey h, [h])] h.«section» secs

/-- The Section Index `CheatSheet.get_sections`: a single pass over the
hotkey list, grouping into insertion-ordered (section, subsection) buckets. -/
def get_sections (hotkeys : List Hotkey) :
    List (String × List (String × List Hotkey)) :=
  hotkeys.foldl insertHotkey []

/-- First-seen deduplication of a list of keys: the order in which distinct
keys appear.  Used to state the ordering guarantees of `get_sections`. -/
def firstSeen : List String → List String
  | [] => []
  | x :: xs => x :: (firstSeen xs).filter (fun y => y ≠ x)

/-- Canonical form of the inner (subsection) level of the Section Index:
subsection names in first-seen order, each paired with the subsequence of
hotkeys that belong to it. -/
def canonSubs (hs : List Hotkey) : List (String × List Hotkey) :=
  (firstSeen (hs.map subsectionKey)).map
    (fun t => (t, hs.filter (fun h => subsectionKey h = t)))

/-- Canonical form of the Section Index: section names in first-seen order,
each paired with the canonical subsection grouping of its hotkeys. -/
def canonSections (hks : List Hotkey) :
    List (String × List (String × List Hotkey)) :=
  (firstSeen (hks.map (fun h => h.«section»))).map
    (fun s => (s, canonSubs (hks.filter (fun h => h.«section» = s))))

/-- Association-list lookup (first occurrence), modelling `d[k]` access. -/
def lookupA {β : Type} (k : String) : List (String × β) → Option β
  | [] => none
  | (k', v) :: rest => if k' = k then some v else lookupA k rest

/-- The bucket of the Section Index addressed by a (section, subsection)
pair; the empty list when either level is absent. -/
def bucketOf (secs : List (String × List (String × List Hotkey)))
    (s t : String) : List Hotkey :=
  match lookupA s secs with
  | none => []
  | some subs => (lookupA t subs).getD []

/-- Height estimate for one section, `PDFGenerator._estimate_section_height`.
Starts from `header_font_size + 15`, then for every subsection adds a
subsection-header allowance `font_size + 8` when the name is not `"General"`,
`len(hotkeys) * row_height`, and one `subsection_spacing`; finally adds one
`section_spacing`.  The fold mirrors the `total_height +=` accumulation of
the source. -/
def estimate_section_height (cfg : CheatSheetConfig)
    (subsections : List (String × List Hotkey)) : ℚ :=
  subsections.foldl
    (fun acc p =>
      acc + (if p.1 ≠ "General" then ((cfg.font_size : ℚ) + 8) else 0)
        + (p.2.length : ℚ) * cfg.row_height + cfg.subsection_spacing)
    ((cfg.header_font_size : ℚ) + 15)
  + cfg.section_spacing

/-- Total number of hotkeys in a section, `PDFGenerator._count_section_items`. -/
def count_section_items (subsections : List (String × List Hotkey)) : ℕ :=
  (subsections.map (fun p => p.2.length)).sum

/-- Reportlab `LETTER` page size in points. -/
def letterSize : ℚ × ℚ := (612, 792)

/-- Reportlab `A4` page size in points: `(210 * mm, 297 * mm)` with
`mm = 72 / 25.4 = 360 / 127`, an exact rational. -/
def a4Size : ℚ × ℚ := (75600 / 127, 106920 / 127)

/-- Reportlab `landscape`: reorders a page size to (long edge, short edge). -/
def landscapeOf (p : ℚ × ℚ) : ℚ × ℚ := (max p.1 p.2, min p.1 p.2)

/-- Page size selection `PDFGenerator._get_page_size`: `"a4"` (case
insensitive) selects A4, anything else defaults to letter; `"landscape"`
(case insensitive) applies the landscape reordering. -/
def get_page_size (cfg : CheatSheetConfig) : ℚ × ℚ :=
  let base := if cfg.paper_size.toLower = "a4" then a4Size else letterSize
  if cfg.orientation.toLower = "landscape" then landscapeOf base else base

/-- Column width and usable page height, `PDFGenerator._calculate_layout`.
`COLUMN_SPACING = 15`; the `columns - 1` of the source is Python integer
arithmetic, hence the cast to `ℚ` before subtracting. -/
def calculate_layout (cfg : CheatSheetConfig) : ℚ × ℚ :=
  let page_width := (get_page_size cfg).1
  let page_height := (get_page_size cfg).2
  let usable_width := page_width - 2 * cfg.margin
  let usable_height := page_height - 2 * cfg.margin
  let total_column_spacing := ((cfg.columns : ℚ) - 1) * 15
  ((usable_width - total_column_spacing) / (cfg.columns : ℚ), usable_height)

/-- Frame height used by the conditional spacers,
`PDFGenerator._get_actual_frame_height`: half the usable height minus the
inter-row margin in `fill_top_half` mode, the full usable height otherwise. -/
def get_actual_frame_height (cfg : CheatSheetConfig) : ℚ :=
  let page_height := (get_page_size cfg).2
  let usable_height := page_height - 2 * cfg.margin
  if cfg.fill_top_half then (usable_height - cfg.margin) / 2 else usable_height

/-- The `ConditionalSpacer` flowable: its configured height, the frame height
it was constructed with, and the total vertical frame padding. -/
structure ConditionalSpacer where
  height : ℚ
  frame_height : ℚ
  total_frame_padding_vertical : ℚ
deriving DecidableEq

/-- The `ConditionalSpacer.wrap` method: when the renderer-reported available
height is at least 95% of (frame height − vertical padding) the spacer is at
the top of a frame and collapses to height 0; otherwise it takes its
configured height.  The float literal `0.95` of the source is the exact
rational `19/20`. -/
def ConditionalSpacer.wrap (s : ConditionalSpacer)
    (availWidth availHeight : ℚ) : ℚ × ℚ :=
  if (s.frame_height - s.total_frame_padding_vertical) * (19 / 20) ≤ availHeight
  then (availWidth, 0)
  else (availWidth, s.height)

/-- A rectangular flow frame produced by `PDFGenerator._create_multicolumn_doc`
(the fixed interior paddings 6/6/3/3 are common to all frames and omitted). -/
structure FrameRect where
  x : ℚ
  y : ℚ
  width : ℚ
  height : ℚ
deriving DecidableEq

/-- Frame width used by `_create_multicolumn_doc`:
`(page_width - 2*margin - (columns-1)*15) / columns`. -/
def frame_width (cfg : CheatSheetConfig) : ℚ :=
  ((get_page_size cfg).1 - 2 * cfg.margin - ((cfg.columns : ℚ) - 1) * 15)
    / (cfg.columns : ℚ)

/-- The frame list of `PDFGenerator._create_multicolumn_doc`.  In
`fill_top_half` mode: a top row of `columns` frames (left to right) at
`y = margin + frame_height + margin`, then a bottom row at `y = margin`, each
of height `(usable_height - margin) / 2`.  Otherwise a single row of
`columns` full-height frames at `y = margin`. -/
def multicolumn_frames (cfg : CheatSheetConfig) : List FrameRect :=
  let page_height := (get_page_size cfg).2
  let fw := frame_width cfg
  if cfg.fill_top_half then
    let usable_height := page_height - 2 * cfg.margin
    let fh := (usable_height - cfg.margin) / 2
    ((List.range cfg.columns).map (fun (i : ℕ) =>
        ⟨cfg.margin + (i : ℚ) * (fw + 15), cfg.margin + fh + cfg.margin, fw, fh⟩))
    ++ ((List.range cfg.columns).map (fun (i : ℕ) =>
        ⟨cfg.margin + (i : ℚ) * (fw + 15), cfg.margin, fw, fh⟩))
  else
    (List.range cfg.columns).map (fun (i : ℕ) =>
      ⟨cfg.margin + (i : ℚ) * (fw + 15), cfg.margin, fw,
        page_height - 2 * cfg.margin⟩)

/-- Page count estimate `PDFGenerator.estimate_pages`: an aggregate height
(title allowance 30, 15 per section header, 12 per subsection header,
`row_height` per hotkey, one `section_spacing` per section) divided by the
column count and the usable height, rounded up, floored at 1. -/
def estimate_pages (cfg : CheatSheetConfig) (hotkeys : List Hotkey) : ℤ :=
  let usable_height := (calculate_layout cfg).2
  let total_hotkeys := hotkeys.length
  let sections := get_sections hotkeys
  let title_height : ℚ := 30
  let section_headers_height : ℚ := (sections.length : ℚ) * 15
  let total_subsections : ℕ := (sections.map (fun p => p.2.length)).sum
  let subsection_headers_height : ℚ := (total_subsections : ℚ) * 12
  let hotkey_height : ℚ := (total_hotkeys : ℚ) * cfg.row_height
  let spacing_height : ℚ := (sections.length : ℚ) * cfg.section_spacing
  let total_height := title_height + section_headers_height
    + subsection_headers_height + hotkey_height + spacing_height
  let effective_height := total_height / (cfg.columns : ℚ)
  max 1 ⌈effective_height / usable_height⌉

/-- A single flowable as it appears in the story built by
`PDFGenerator._build_content`: the title paragraph, a fixed `Spacer` (width 1
is irrelevant and dropped), a `ConditionalSpacer`, a section header paragraph
(the source renders `section_name.upper()` in the header style), a subsection
header paragraph, or a hotkey table (abstracted to the hotkey rows it shows). -/
inductive Elem where
  | titleText (s : String)
  | fixedSpacer (h : ℚ)
  | condSpacer (s : ConditionalSpacer)
  | header (name : String)
  | subheader (name : String)
  | table (hotkeys : List Hotkey)
deriving DecidableEq

/-- A top-level entry of the story list: a plain flowable or a `KeepTogether`
group (the atomic, unbreakable blocks of the Flow Packer). -/
inductive Block where
  | plain (e : Elem)
  | group (es : List Elem)
deriving DecidableEq

/-- The spacing element placed before a non-first section
(`_build_content`, the `section_spacing_element` assignment): a
`ConditionalSpacer(section_spacing, frame_height, 12)` when
`section_align_flush` is enabled, a fixed `Spacer(1, section_spacing)`
otherwise.  The total vertical frame padding is `6 + 6 = 12`. -/
def interSpacerElem (cfg : CheatSheetConfig) : Elem :=
  if cfg.section_align_flush then
    Elem.condSpacer ⟨cfg.section_spacing, get_actual_frame_height cfg, 12⟩
  else
    Elem.fixedSpacer cfg.section_spacing

/-- The flowables emitted for one subsection's own content: the subsection
header paragraph when the name is not `"General"`, then — when the hotkey
list is non-empty (`_create_hotkey_table` returns `None` on an empty list) —
the hotkey table and a trailing `Spacer(1, subsection_spacing)`. -/
def subsectionElems (cfg : CheatSheetConfig) (name : String)
    (hotkeys : List Hotkey) : List Elem :=
  (if name ≠ "General" then [Elem.subheader name] else [])
  ++ (if hotkeys.isEmpty then []
      else [Elem.table hotkeys, Elem.fixedSpacer cfg.subsection_spacing])

/-- The section header paragraph (text `section_name.upper()`) followed by
its trailing `Spacer(1, section_header_space_after)`; the source sets
`section_header_space_after = 8` in `PDFGenerator.__init__`. -/
def headerElems (name : String) : List Elem :=
  [Elem.header name.toUpper, Elem.fixedSpacer 8]

/-- The full `section_content` list of `_build_content`: the inter-section
spacing element (absent for the first section), the section header and its
trailing spacer, then every subsection's content in order. -/
def sectionContent (cfg : CheatSheetConfig) (isFirst : Bool) (name : String)
    (subsections : List (String × List Hotkey)) : List Elem :=
  (if isFirst then [] else [interSpacerElem cfg]) ++ headerElems name
  ++ subsections.flatMap (fun p => subsectionElems cfg p.1 p.2)

/-- The blocks emitted by the large-section branch of `_build_content`
(`section_height > large_section_threshold`): one `KeepTogether` per
subsection, the first one (`i == 0` in the source's `enumerate`) additionally
carrying the section header and its trailing spacer; a subsection whose
content list stays empty emits no block.  Note that this branch never
includes the `section_spacing_element`. -/
def largeBlocks (cfg : CheatSheetConfig) (name : String) :
    List (String × List Hotkey) → List Block
  | [] => []
  | (t, hs) :: rest =>
      ((headerElems name ++ subsectionElems cfg t hs)
          :: rest.map (fun p => subsectionElems cfg p.1 p.2)).filterMap
        (fun es => if es.isEmpty then none else some (Block.group es))

/-- The blocks emitted by the medium-section branch of `_build_content`: the
pre-section spacing element (when present) and the section header merged with
the first subsection as one `KeepTogether`, then each subsequent subsection
as its own `KeepTogether` (skipped when its content list is empty). -/
def mediumBlocks (cfg : CheatSheetConfig) (isFirst : Bool) (name : String) :
    List (String × List Hotkey) → List Block
  | [] => []
  | (t, hs) :: rest =>
      Block.group ((if isFirst then [] else [interSpacerElem cfg])
          ++ headerElems name ++ subsectionElems cfg t hs)
      :: rest.filterMap (fun p =>
          let es := subsectionElems cfg p.1 p.2
          if es.isEmpty then none else some (Block.group es))

/-- The per-section block emission of `_build_content`.  With
`section_no_awkward_breaks` enabled: a section with fewer than 3 items is one
atomic block; else a section estimated taller than 200 is split per
subsection; else a section estimated under 100 is one atomic block; else the
medium merge applies.  With the flag disabled the same three size branches
apply without the small-item rule (the source duplicates the branch bodies
verbatim; both paths are embedded by the shared helpers above). -/
def sectionBlocks (cfg : CheatSheetConfig) (isFirst : Bool) (name : String)
    (subsections : List (String × List Hotkey)) : List Block :=
  if cfg.section_no_awkward_breaks then
    if count_section_items subsections < 3 then
      [Block.group (sectionContent cfg isFirst name subsections)]
    else if 200 < estimate_section_height cfg subsections then
      largeBlocks cfg name subsections
    else if estimate_section_height cfg subsections < 100 then
      [Block.group (sectionContent cfg isFirst name subsections)]
    else
      mediumBlocks cfg isFirst name subsections
  else
    if 200 < estimate_section_height cfg subsections then
      largeBlocks cfg name subsections
    else if estimate_section_height cfg subsections < 100 then
      [Block.group (sectionContent cfg isFirst name subsections)]
    else
      mediumBlocks cfg isFirst name subsections

/-- The blocks contributed by the section at position `i` of the Section
Index (the loop of `_build_content` visits sections in index order, with
`first_section` true exactly at position 0). -/
def sectionBlocksAt (cfg : CheatSheetConfig) (hotkeys : List Hotkey)
    (i : ℕ) : List Block :=
  match (get_sections hotkeys).get? i with
  | none => []
  | some p => sectionBlocks cfg (i == 0) p.1 p.2

/-- The full story list of `PDFGenerator._build_content`: the title
paragraph, a fixed `Spacer(1, 12)`, then the concatenated per-section
blocks in section order. -/
def build_content (cfg : CheatSheetConfig) (title : String)
    (hotkeys : List Hotkey) : List Block :=
  [Block.plain (Elem.titleText title), Block.plain (Elem.fixedSpacer 12)]
  ++ (List.range (get_sections hotkeys).length).flatMap
      (sectionBlocksAt cfg hotkeys)

/-- One key/value pair of the mapping handed to
`CheatSheetConfig.from_dict`.  A recognized option name carries a value of
its field's type (Python dataclasses do not check value types at run time,
so only well-typed values are modelled; the claims under study are about
keys, not values); `other key` stands for an entry under any other key. -/
inductive ConfigEntry where
  | title (v : String)
  | font_size (v : ℕ)
  | header_font_size (v : ℕ)
  | margin (v : ℚ)
  | columns (v : ℕ)
  | row_height (v : ℚ)
  | section_spacing (v : ℚ)
  | subsection_spacing (v : ℚ)
  | paper_size (v : String)
  | orientation (v : String)
  | fill_top_half (v : Bool)
  | section_align_flush (v : Bool)
  | section_no_awkward_breaks (v : Bool)
  | other (key : String)
deriving DecidableEq

/-- The dictionary key of an entry. -/
def ConfigEntry.key : ConfigEntry → String
  | .title _ => "title"
  | .font_size _ => "font_size"
  | .header_font_size _ => "header_font_size"
  | .margin _ => "margin"
  | .columns _ => "columns"
  | .row_height _ => "row_height"
  | .section_spacing _ => "section_spacing"
  | .subsection_spacing _ => "subsection_spacing"
  | .paper_size _ => "paper_size"
  | .orientation _ => "orientation"
  | .fill_top_half _ => "fill_top_half"
  | .section_align_flush _ => "section_align_flush"
  | .section_no_awkward_breaks _ => "section_no_awkward_breaks"
  | .other k => k

/-- Whether an entry's key is not a recognized option name. -/
def ConfigEntry.isOther : ConfigEntry → Bool
  | .other _ => true
  | _ => false

/-- The names of the dataclass fields of `CheatSheetConfig`. -/
def fieldNames : List String :=
  ["title", "font_size", "header_font_size", "margin", "columns",
   "row_height", "section_spacing", "subsection_spacing", "paper_size",
   "orientation", "fill_top_half", "section_align_flush",
   "section_no_awkward_breaks"]

/-- The names for which `hasattr(CheatSheetConfig, k)` holds — the filter
used by `from_dict`.  Every dataclass field has a default, so every field
name is a class attribute; in addition the classmethod `from_dict` itself and
the attributes a Python dataclass inherits or generates are class attributes.
The inherited `object` protocol names are listed as in CPython. -/
def classAttrNames : List String :=
  fieldNames ++
  ["from_dict",
   "__init__", "__repr__", "__eq__", "__hash__", "__doc__", "__module__",
   "__dict__", "__weakref__", "__dataclass_fields__", "__dataclass_params__",
   "__match_args__", "__annotations__", "__class__", "__delattr__", "__dir__",
   "__format__", "__ge__", "__getattribute__", "__gt__", "__le__", "__lt__",
   "__ne__", "__new__", "__reduce__", "__reduce_ex__", "__setattr__",
   "__sizeof__", "__str__", "__subclasshook__", "__init_subclass__",
   "__getstate__", "__replace__"]

/-- Applying one keyword argument to a config under construction. -/
def applyEntry (cfg : CheatSheetConfig) : ConfigEntry → CheatSheetConfig
  | .title v => { cfg with title := v }
  | .font_size v => { cfg with font_size := v }
  | .header_font_size v => { cfg with header_font_size := v }
  | .margin v => { cfg with margin := v }
  | .columns v => { cfg with columns := v }
  | .row_height v => { cfg with row_height := v }
  | .section_spacing v => { cfg with section_spacing := v }
  | .subsection_spacing v => { cfg with subsection_spacing := v }
  | .paper_size v => { cfg with paper_size := v }
  | .orientation v => { cfg with orientation := v }
  | .fill_top_half v => { cfg with fill_top_half := v }
  | .section_align_flush v => { cfg with section_align_flush := v }
  | .section_no_awkward_breaks v => { cfg with section_no_awkward_breaks := v }
  | .other _ => cfg

/-- The constructor call `CheatSheetConfig.from_dict(data)`:
`cls(**{k: v for k, v in data.items() if hasattr(cls, k)})`.  Entries whose
key is not a class attribute are dropped by the comprehension; if any
surviving key is not an `__init__` parameter (i.e. not a dataclass field —
for example the key `"from_dict"`), the call `cls(**kwargs)` raises a
`TypeError`, modelled as `none`; otherwise the surviving keyword arguments
are applied over the defaults. -/
def from_dict (data : List ConfigEntry) : Option CheatSheetConfig :=
  let kept := data.filter (fun e => e.key ∈ classAttrNames)
  if kept.any (fun e => e.isOther) then none
  else some (kept.foldl applyEntry {})

/-- The `CheatSheet` dataclass: a title, the hotkey list, and an optional
config (`config: CheatSheetConfig = None` in the source). -/
structure CheatSheet where
  title : String
  hotkeys : List Hotkey
  config : Option CheatSheetConfig
deriving DecidableEq

/-- Construction of a `CheatSheet`, including `__post_init__`: when no
config is supplied, a default `CheatSheetConfig` carrying the sheet's title
is installed. -/
def mkCheatSheet (title : String) (hotkeys : List Hotkey)
    (config : Option CheatSheetConfig) : CheatSheet :=
  { title := title, hotkeys := hotkeys,
    config := match config with
      | none => some { title := title }
      | some c => some c }

/-- Whether a story entry contains the given flowable (directly, or inside
its `KeepTogether` group). -/
def blockHasElem (e : Elem) : Block → Bool
  | Block.plain e' => e' = e
  | Block.group es => decide (e ∈ es)

/-- The condition under which `_build_content` takes the split-by-subsection
branch for a section: the estimated height exceeds 200 and — when
`section_no_awkward_breaks` is enabled — the section has at least 3 items
(otherwise the keep-tiny-sections-together rule fires first). -/
def largeSplitCondition (cfg : CheatSheetConfig)
    (subsections : List (String × List Hotkey)) : Prop :=
  (cfg.section_no_awkward_breaks = true → 3 ≤ count_section_items subsections)
  ∧ 200 < estimate_section_height cfg subsections

theorem firstSeen_mem {x : String} : ∀ {l : List String}, x ∈ firstSeen l ↔ x ∈ l
  | [] => Iff.rfl
  | a :: as => by
      simp only [firstSeen, List.mem_cons, List.mem_filter,
        @firstSeen_mem x as, decide_eq_true_eq]
      by_cases hxa : x = a <;> simp [hxa]

theorem firstSeen_nodup : ∀ (l : List String), (firstSeen l).Nodup
  | [] => List.nodup_nil
  | a :: as => by
      simp only [firstSeen, List.nodup_cons]
      refine ⟨fun hmem => ?_, (firstSeen_nodup as).filter _⟩
      have := (List.mem_filter.mp hmem).2
      simp at this

theorem firstSeen_append (x : String) :
    ∀ (l : List String),
      firstSeen (l ++ [x]) =
        if x ∈ l then firstSeen l else firstSeen l ++ [x]
  | [] => by simp [firstSeen]
  | a :: as => by
      by_cases hx : x ∈ as
      · simp [firstSeen, firstSeen_append x as, hx, List.mem_cons]
      · by_cases hxa : x = a
        · subst hxa
          simp [firstSeen, firstSeen_append x as, hx, List.filter_append]
        · simp [firstSeen, firstSeen_append x as, hx, hxa, Ne.symm hxa,
            List.filter_append]

theorem filter_eq_nil_of_not_mem_map {α : Type} (f : α → String) (x : String)
    (l : List α) (h : x ∉ l.map f) :
    l.filter (fun a => f a = x) = [] := by
  rw [List.filter_eq_nil_iff]
  intro a ha
  simp only [decide_eq_true_eq]
  intro hfa
  exact h (List.mem_map.mpr ⟨a, ha, hfa⟩)

theorem upsert_map {β : Type} (f : β → β) (fresh : β) (k : String)
    (g : String → β) :
    ∀ (keys : List String), keys.Nodup →
      upsert f fresh k (keys.map (fun s => (s, g s))) =
        if k ∈ keys then
          keys.map (fun s => (s, if s = k then f (g s) else g s))
        else keys.map (fun s => (s, g s)) ++ [(k, fresh)]
  | [], _ => by simp [upsert]
  | a :: keys, hnd => by
      simp only [List.map_cons, upsert]
      by_cases hak : a = k
      · subst hak
        have hnot : a ∉ keys := (List.nodup_cons.mp hnd).1
        rw [if_pos rfl, if_pos (List.mem_cons_self a keys)]
        simp only [List.map_cons, if_pos rfl]
        refine congrArg _ (List.map_congr_left fun s hs => ?_)
        have hne : s ≠ a := fun hcontra => hnot (hcontra ▸ hs)
        simp [hne]
      · rw [if_neg hak, upsert_map f fresh k g keys (List.nodup_cons.mp hnd).2]
        by_cases hk : k ∈ keys
        · rw [if_pos hk, if_pos (List.mem_cons_of_mem a hk)]
          simp [hak]
        · have hka : k ≠ a := fun hc => hak hc.symm
          have : k ∉ a :: keys := by simp [List.mem_cons, hka, hk]
          rw [if_neg hk, if_neg this]
          simp [hak]

theorem canonSubs_append (hs : List Hotkey) (h : Hotkey) :
    upsert (fun l => l ++ [h]) [h] (subsectionKey h) (canonSubs hs) =
      canonSubs (hs ++ [h]) := by
  unfold canonSubs
  rw [upsert_map _ _ _ _ _ (firstSeen_nodup (hs.map subsectionKey))]
  have hmapapp : (hs ++ [h]).map subsectionKey
      = hs.map subsectionKey ++ [subsectionKey h] := by simp
  by_cases hmem : subsectionKey h ∈ hs.map subsectionKey
  · rw [if_pos (firstSeen_mem.mpr hmem), hmapapp,
      firstSeen_append _ _, if_pos hmem]
    refine List.map_congr_left fun t ht => ?_
    rw [List.filter_append]
    by_cases hth : t = subsectionKey h
    · subst hth
      simp [List.filter]
    · simp [List.filter, Ne.symm hth, hth]
  · rw [if_neg (fun hc => hmem (firstSeen_mem.mp hc)), hmapapp,
      firstSeen_append _ _, if_neg hmem, List.map_append]
    refine congrArg₂ _ (List.map_congr_left fun t ht => ?_) ?_
    · have htmem : t ∈ hs.map subsectionKey := firstSeen_mem.mp ht
      have hth : t ≠ subsectionKey h := fun hc => hmem (hc ▸ htmem)
      rw [List.filter_append]
      simp [List.filter, Ne.symm hth]
    · rw [List.map_singleton, List.filter_append,
        filter_eq_nil_of_not_mem_map _ _ _ hmem]
      simp [List.filter]

theorem canonSections_append (l : List Hotkey) (h : Hotkey) :
    insertHotkey (canonSections l) h = canonSections (l ++ [h]) := by
  unfold insertHotkey canonSections
  rw [upsert_map _ _ _ _ _
    (firstSeen_nodup (l.map (fun h' => h'.«section»)))]
  have hmapapp : (l ++ [h]).map (fun h' => h'.«section»)
      = l.map (fun h' => h'.«section») ++ [h.«section»] := by simp
  by_cases hmem : h.«section» ∈ l.map (fun h' => h'.«section»)
  · rw [if_pos (firstSeen_mem.mpr hmem), hmapapp,
      firstSeen_append _ _, if_pos hmem]
    refine List.map_congr_left fun s hs => ?_
    by_cases hsh : s = h.«section»
    · subst hsh
      rw [if_pos rfl, canonSubs_append, List.filter_append]
      simp [List.filter]
    · rw [if_neg hsh, List.filter_append]
      have hne : h.«section» ≠ s := fun hc => hsh hc.symm
      simp [hne]
  · rw [if_neg (fun hc => hmem (firstSeen_mem.mp hc)), hmapapp,
      firstSeen_append _ _, if_neg hmem, List.map_append]
    refine congrArg₂ _ (List.map_congr_left fun s hs => ?_) ?_
    · have hsmem : s ∈ l.map (fun h' => h'.«section») := firstSeen_mem.mp hs
      have hsh : s ≠ h.«section» := fun hc => hmem (hc ▸ hsmem)
      have hne : h.«section» ≠ s := fun hc => hsh hc.symm
      rw [List.filter_append]
      simp [hne]
    · rw [List.map_singleton, List.filter_append,
        filter_eq_nil_of_not_mem_map _ _ _ hmem]
      simp [List.filter, canonSubs, firstSeen]

theorem get_sections_eq_canon (hks : List Hotkey) :
    get_sections hks = canonSections hks := by
  induction hks using List.reverseRecOn with
  | nil => rfl
  | append_singleton l h ih =>
      rw [get_sections, List.foldl_append, List.foldl_cons, List.foldl_nil,
        ← get_sections, ih, canonSections_append]

theorem lookupA_map {β : Type} (g : String → β) (k : String) :
    ∀ (keys : List String),
      lookupA k (keys.map (fun s => (s, g s))) =
        if k ∈ keys then some (g k) else none
  | [] => by simp [lookupA]
  | a :: keys => by
      simp only [List.map_cons, lookupA]
      by_cases hak : a = k
      · subst hak
        simp
      · rw [if_neg hak, lookupA_map g k keys]
        by_cases hk : k ∈ keys
        · simp [hk]
        · have hka : k ≠ a := fun hc => hak hc.symm
          simp [hk, hka]

theorem bucketOf_get_sections (hks : List Hotkey) (s t : String) :
    bucketOf (get_sections hks) s t =
      (hks.filter (fun h => h.«section» = s)).filter
        (fun h => subsectionKey h = t) := by
  rw [get_sections_eq_canon]
  unfold bucketOf canonSections
  rw [lookupA_map]
  by_cases hs : s ∈ firstSeen (hks.map (fun h => h.«section»))
  · rw [if_pos hs]
    simp only
    unfold canonSubs
    rw [lookupA_map]
    by_cases ht : t ∈
        firstSeen ((hks.filter (fun h => h.«section» = s)).map subsectionKey)
    · rw [if_pos ht]
      rfl
    · rw [if_neg ht, Option.getD_none,
        filter_eq_nil_of_not_mem_map subsectionKey t _
          (fun hc => ht (firstSeen_mem.mpr hc))]
  · rw [if_neg hs]
    simp only
    have hnil : hks.filter (fun h : Hotkey => h.«section» = s) = [] :=
      filter_eq_nil_of_not_mem_map (fun h : Hotkey => h.«section») s hks
        (fun hc => hs (firstSeen_mem.mpr hc))
    rw [hnil]
    rfl

theorem mem_get_sections {hks : List Hotkey} {s : String}
    {subs : List (String × List Hotkey)}
    (hmem : (s, subs) ∈ get_sections hks) :
    subs = canonSubs (hks.filter (fun h => h.«section» = s))
      ∧ s ∈ hks.map (fun h => h.«section») := by
  rw [get_sections_eq_canon] at hmem
  unfold canonSections at hmem
  obtain ⟨s', hs', heq⟩ := List.mem_map.mp hmem
  obtain ⟨h1, h2⟩ := Prod.mk.injEq .. ▸ heq
  exact ⟨h2 ▸ h1 ▸ rfl, h1 ▸ firstSeen_mem.mp hs'⟩

theorem mem_canonSubs_ne_nil {fs : List Hotkey} {t : String}
    {hs : List Hotkey} (hmem : (t, hs) ∈ canonSubs fs) : hs ≠ [] := by
  unfold canonSubs at hmem
  obtain ⟨t', ht', heq⟩ := List.mem_map.mp hmem
  obtain ⟨h1, h2⟩ := Prod.mk.injEq .. ▸ heq
  subst h1
  obtain ⟨h', hh', hkey⟩ := List.mem_map.mp (firstSeen_mem.mp ht')
  intro hnil
  have : h' ∈ fs.filter (fun h => subsectionKey h = t') :=
    List.mem_filter.mpr ⟨hh', by simp [hkey]⟩
  rw [h2, hnil] at this
  exact List.not_mem_nil h' this

theorem canonSubs_ne_nil {fs : List Hotkey} (hne : fs ≠ []) :
    canonSubs fs ≠ [] := by
  unfold canonSubs
  cases fs with
  | nil => exact absurd rfl hne
  | cons a l => simp [firstSeen]

theorem get_sections_subs_ne_nil {hks : List Hotkey} {s : String}
    {subs : List (String × List Hotkey)}
    (hmem : (s, subs) ∈ get_sections hks) : subs ≠ [] := by
  obtain ⟨hsubs, hsmem⟩ := mem_get_sections hmem
  obtain ⟨h', hh', hsec⟩ := List.mem_map.mp hsmem
  have hfs : hks.filter (fun h => h.«section» = s) ≠ [] := by
    intro hnil
    have : h' ∈ hks.filter (fun h => h.«section» = s) :=
      List.mem_filter.mpr ⟨hh', by simp [hsec]⟩
    rw [hnil] at this
    exact List.not_mem_nil h' this
  exact hsubs ▸ canonSubs_ne_nil hfs

theorem get_sections_buckets_ne_nil {hks : List Hotkey} {s : String}
    {subs : List (String × List Hotkey)}
    (hmem : (s, subs) ∈ get_sections hks) :
    ∀ t hs, (t, hs) ∈ subs → hs ≠ [] := by
  obtain ⟨hsubs, _⟩ := mem_get_sections hmem
  intro t hs hts
  exact mem_canonSubs_ne_nil (hsubs ▸ hts)

theorem foldl_add_map {α : Type} (f : α → ℚ) :
    ∀ (l : List α) (a : ℚ),
      l.foldl (fun acc x => acc + f x) a = a + (l.map f).sum
  | [], a => by simp
  | x :: l, a => by
      rw [List.foldl_cons, foldl_add_map f l (a + f x), List.map_cons,
        List.sum_cons]
      ring

theorem subsectionElems_ne_nil (cfg : CheatSheetConfig) (t : String)
    {hs : List Hotkey} (hne : hs ≠ []) :
    subsectionElems cfg t hs ≠ [] := by
  unfold subsectionElems
  rw [if_neg (by simp [hne] : ¬hs.isEmpty = true)]
  by_cases ht : t ≠ "General" <;> simp [ht]

theorem filterMap_all_some {l : List (List Elem)}
    (h : ∀ es ∈ l, es ≠ []) :
    l.filterMap (fun es => if es.isEmpty then none else some (Block.group es))
      = l.map Block.group := by
  induction l with
  | nil => rfl
  | cons a l ih =>
      rw [List.filterMap_cons, List.map_cons,
        if_neg (by simp [h a (List.mem_cons_self a l)] : ¬a.isEmpty = true),
        ih (fun es hes => h es (List.mem_cons_of_mem a hes))]

/-- C1: for every subsection map and every config, the section height
estimate equals `header_font_size + 15`, plus, for each subsection,
(`font_size + 8` if its name is not `"General"`) plus
`len(hotkeys) * row_height` plus `subsection_spacing`, plus one final
`section_spacing`. -/
theorem c1_estimate_section_height (cfg : CheatSheetConfig)
    (subsections : List (String × List Hotkey)) :
    estimate_section_height cfg subsections
      = ((cfg.header_font_size : ℚ) + 15)
        + (subsections.map (fun p =>
            (if p.1 ≠ "General" then ((cfg.font_size : ℚ) + 8) else 0)
              + (p.2.length : ℚ) * cfg.row_height
              + cfg.subsection_spacing)).sum
        + cfg.section_spacing := by
  unfold estimate_section_height
  congr 1
  have hfun : (fun (acc : ℚ) (p : String × List Hotkey) =>
        acc + (if p.1 ≠ "General" then ((cfg.font_size : ℚ) + 8) else 0)
          + (p.2.length : ℚ) * cfg.row_height + cfg.subsection_spacing)
      = fun (acc : ℚ) (p : String × List Hotkey) =>
          acc + ((if p.1 ≠ "General" then ((cfg.font_size : ℚ) + 8) else 0)
            + (p.2.length : ℚ) * cfg.row_height + cfg.subsection_spacing) := by
    funext acc p
    ring
  rw [hfun, foldl_add_map]

/-- C6: with `section_no_awkward_breaks` enabled, a section with fewer than
3 items is emitted as exactly one atomic block carrying the whole section
content (header plus all subsections), regardless of its estimated height. -/
theorem c6_small_section_atomic (cfg : CheatSheetConfig) (isFirst : Bool)
    (name : String) (subsections : List (String × List Hotkey))
    (hflag : cfg.section_no_awkward_breaks = true)
    (hsmall : count_section_items subsections < 3) :
    sectionBlocks cfg isFirst name subsections
      = [Block.group (sectionContent cfg isFirst name subsections)] := by
  unfold sectionBlocks
  rw [if_pos hflag, if_pos hsmall]

/-- C6 witness: a one-hotkey section under the default config is emitted as
one atomic block. -/
theorem c6_small_section_atomic_witness :
    sectionBlocks {} true "Editing" [("General", [⟨"k", "d", "Editing", ""⟩])]
      = [Block.group (sectionContent {} true "Editing"
          [("General", [⟨"k", "d", "Editing", ""⟩])])] :=
  c6_small_section_atomic {} true "Editing"
    [("General", [⟨"k", "d", "Editing", ""⟩])] rfl (by decide)

/-- C9: a conditional spacer built with height `section_spacing`, frame
height `H` and total vertical frame padding 12 wraps to height 0 whenever
the reported available height is at least 95% of `H - 12`, and to the
configured `section_spacing` otherwise. -/
theorem c9_conditional_spacer (spacing frame_h availW availH : ℚ) :
    ((frame_h - 12) * (19 / 20) ≤ availH →
      ((ConditionalSpacer.mk spacing frame_h 12).wrap availW availH).2 = 0)
    ∧ (availH < (frame_h - 12) * (19 / 20) →
      ((ConditionalSpacer.mk spacing frame_h 12).wrap availW availH).2
        = spacing) := by
  constructor <;> intro h
  · simp [ConditionalSpacer.wrap, h]
  · simp [ConditionalSpacer.wrap, not_le.mpr h]

/-- C9 witness: with spacing 8 and frame height 412 the threshold is
`(412 - 12) * 0.95 = 380`; at available height 380 the spacer collapses to
0, at 100 it yields the configured 8. -/
theorem c9_conditional_spacer_witness :
    ((ConditionalSpacer.mk 8 412 12).wrap 1 380).2 = 0
    ∧ ((ConditionalSpacer.mk 8 412 12).wrap 1 100).2 = 8 :=
  ⟨(c9_conditional_spacer 8 412 1 380).1 (by norm_num),
   (c9_conditional_spacer 8 412 1 100).2 (by norm_num)⟩

/-- C10: every `CheatSheet` construction ends with a non-`None` config, and
when no config is supplied the installed one is a default
`CheatSheetConfig` whose title is the sheet's title.  No operation of the
model mutates the field, so the invariant persists. -/
theorem c10_config_never_none (t : String) (hks : List Hotkey)
    (c : Option CheatSheetConfig) :
    (mkCheatSheet t hks c).config.isSome = true
    ∧ (c = none →
        (mkCheatSheet t hks c).config
          = some { title := t : CheatSheetConfig }) := by
  cases c <;> simp [mkCheatSheet]

/-- C10 witness: constructing with `config=None` installs the default
config carrying the sheet's title. -/
theorem c10_config_never_none_witness :
    (mkCheatSheet "My Sheet" [] none).config
      = some { title := "My Sheet" : CheatSheetConfig } :=
  (c10_config_never_none "My Sheet" [] none).2 rfl

/-- C7: `estimate_pages` returns
`max(1, ceil(total / columns / usable_height))` where the total is
`30 + num_sections * 15 + num_subsections_total * 12 +
total_hotkeys * row_height + num_sections * section_spacing` and the usable
height is the page height minus twice the margin; the result is an integer
at least 1, in particular for an empty hotkey list. -/
theorem c7_estimate_pages (cfg : CheatSheetConfig) (hks : List Hotkey) :
    estimate_pages cfg hks
      = max 1 ⌈(30 + ((get_sections hks).length : ℚ) * 15
          + ((((get_sections hks).map (fun p => p.2.length)).sum : ℕ) : ℚ) * 12
          + (hks.length : ℚ) * cfg.row_height
          + ((get_sections hks).length : ℚ) * cfg.section_spacing)
          / (cfg.columns : ℚ) / ((get_page_size cfg).2 - 2 * cfg.margin)⌉
    ∧ 1 ≤ estimate_pages cfg hks := by
  constructor
  · unfold estimate_pages calculate_layout
    rfl
  · unfold estimate_pages
    exact le_max_left 1 _

/-- C4: for every hotkey list, the Section Index places every hotkey in
exactly one (section, subsection) bucket — the bucket addressed by a pair
`(s, t)` is exactly the subsequence of hotkeys with section `s` and
effective subsection `t`, so each hotkey occurrence lives in precisely the
bucket of its own keys; section names appear in first-seen order, subsection
names within each section appear in first-seen order; and a hotkey with an
empty subsection lands under the literal name `"General"`. -/
theorem c4_section_index (hks : List Hotkey) :
    (∀ s t, bucketOf (get_sections hks) s t
        = (hks.filter (fun h => h.«section» = s)).filter
            (fun h => subsectionKey h = t))
    ∧ (get_sections hks).map Prod.fst
        = firstSeen (hks.map (fun h => h.«section»))
    ∧ (∀ s subs, (s, subs) ∈ get_sections hks →
        subs.map Prod.fst
          = firstSeen
              ((hks.filter (fun h => h.«section» = s)).map subsectionKey))
    ∧ (∀ h ∈ hks,
        h ∈ bucketOf (get_sections hks) h.«section» (subsectionKey h)
        ∧ (h.subsection = "" →
            h ∈ bucketOf (get_sections hks) h.«section» "General")) := by
  refine ⟨bucketOf_get_sections hks, ?_, ?_, ?_⟩
  · rw [get_sections_eq_canon]
    unfold canonSections
    rw [List.map_map]
    exact List.map_id _
  · intro s subs hmem
    obtain ⟨hsubs, _⟩ := mem_get_sections hmem
    rw [hsubs]
    unfold canonSubs
    rw [List.map_map]
    exact List.map_id _
  · intro h hh
    have hbase : h ∈ bucketOf (get_sections hks) h.«section» (subsectionKey h) := by
      rw [bucketOf_get_sections]
      exact List.mem_filter.mpr
        ⟨List.mem_filter.mpr ⟨hh, by simp⟩, by simp⟩
    refine ⟨hbase, fun hemp => ?_⟩
    have : subsectionKey h = "General" := by simp [subsectionKey, hemp]
    exact this ▸ hbase

/-- C4 witness: a concrete two-hotkey document; the hotkey with the empty
subsection lands in the `"General"` bucket of its section, and the section
order is the first-seen order. -/
theorem c4_section_index_witness :
    (⟨"x", "cut", "Edit", ""⟩ : Hotkey) ∈
      bucketOf (get_sections
        [⟨"x", "cut", "Edit", ""⟩, ⟨"y", "copy", "View", "Zoom"⟩])
        "Edit" "General"
    ∧ (get_sections
        [⟨"x", "cut", "Edit", ""⟩, ⟨"y", "copy", "View", "Zoom"⟩]).map
          Prod.fst
        = firstSeen (["Edit", "View"]) := by
  have h := c4_section_index
    [⟨"x", "cut", "Edit", ""⟩, ⟨"y", "copy", "View", "Zoom"⟩]
  refine ⟨(h.2.2.2 ⟨"x", "cut", "Edit", ""⟩ (by simp)).2 rfl, ?_⟩
  have h2 := h.2.1
  simpa using h2

/-- C8: with `fill_top_half` enabled the layout planner produces exactly
`2 * columns` frames — a top row of `columns` frames stacked above a bottom
row of `columns` frames, every frame of height
`(usable_height - margin) / 2`, with the margin as the vertical gap between
the rows (the j-th top frame sits directly above the j-th bottom frame,
`margin` above its top edge); with the flag disabled it produces exactly
`columns` frames spanning the full usable height. -/
theorem c8_frame_layout (cfg : CheatSheetConfig) :
    (cfg.fill_top_half = true →
      (multicolumn_frames cfg).length = 2 * cfg.columns
      ∧ (∀ f ∈ multicolumn_frames cfg,
          f.height = (((get_page_size cfg).2 - 2 * cfg.margin) - cfg.margin) / 2)
      ∧ (∀ j, j < cfg.columns →
          ∃ ft fb, (multicolumn_frames cfg).get? j = some ft
            ∧ (multicolumn_frames cfg).get? (cfg.columns + j) = some fb
            ∧ ft.x = fb.x
            ∧ ft.y = fb.y + fb.height + cfg.margin))
    ∧ (cfg.fill_top_half = false →
      (multicolumn_frames cfg).length = cfg.columns
      ∧ ∀ f ∈ multicolumn_frames cfg,
          f.height = (get_page_size cfg).2 - 2 * cfg.margin
          ∧ f.y = cfg.margin) := by
  constructor
  · intro hfill
    have hframes : multicolumn_frames cfg
        = ((List.range cfg.columns).map (fun (i : ℕ) =>
            (⟨cfg.margin + (i : ℚ) * (frame_width cfg + 15),
              cfg.margin + (((get_page_size cfg).2 - 2 * cfg.margin)
                - cfg.margin) / 2 + cfg.margin,
              frame_width cfg,
              (((get_page_size cfg).2 - 2 * cfg.margin) - cfg.margin) / 2⟩
              : FrameRect)))
          ++ ((List.range cfg.columns).map (fun (i : ℕ) =>
            (⟨cfg.margin + (i : ℚ) * (frame_width cfg + 15), cfg.margin,
              frame_width cfg,
              (((get_page_size cfg).2 - 2 * cfg.margin) - cfg.margin) / 2⟩
              : FrameRect))) := by
      unfold multicolumn_frames
      rw [if_pos hfill]
    refine ⟨?_, ?_, ?_⟩
    · rw [hframes]
      simp [two_mul]
    · intro f hf
      rw [hframes] at hf
      rcases List.mem_append.mp hf with hf' | hf' <;>
        · obtain ⟨i, _, hif⟩ := List.mem_map.mp hf'
          rw [← hif]
    · intro j hj
      refine ⟨⟨cfg.margin + (j : ℚ) * (frame_width cfg + 15),
          cfg.margin + (((get_page_size cfg).2 - 2 * cfg.margin)
            - cfg.margin) / 2 + cfg.margin,
          frame_width cfg,
          (((get_page_size cfg).2 - 2 * cfg.margin) - cfg.margin) / 2⟩,
        ⟨cfg.margin + (j : ℚ) * (frame_width cfg + 15), cfg.margin,
          frame_width cfg,
          (((get_page_size cfg).2 - 2 * cfg.margin) - cfg.margin) / 2⟩,
        ?_, ?_, rfl, rfl⟩
      · rw [hframes, List.get?_append (by simpa using hj), List.get?_map,
          List.get?_range hj]
        rfl
      · rw [hframes,
          List.get?_append_right (by simpa using Nat.le_add_right _ j),
          List.get?_map]
        simp only [List.length_map, List.length_range,
          Nat.add_sub_cancel_left]
        rw [List.get?_range hj]
        rfl
  · intro hfill
    unfold multicolumn_frames
    rw [if_neg (by simp [hfill])]
    refine ⟨by simp, ?_⟩
    intro f hf
    obtain ⟨i, _, hif⟩ := List.mem_map.mp hf
    rw [← hif]
    exact ⟨rfl, rfl⟩

/-- C8 witness: the spec scenario — `fill_top_half=true`, `columns=3`,
letter portrait — yields 6 frames. -/
theorem c8_frame_layout_witness :
    (multicolumn_frames { columns := 3, fill_top_half := true }).length
      = 2 * 3 :=
  ((c8_frame_layout { columns := 3, fill_top_half := true }).1 rfl).1

/-- C5: for a section of a document whose estimated height exceeds 200
(and, when `section_no_awkward_breaks` is enabled, whose item count is at
least 3), the Flow Packer emits exactly one atomic block per subsection of
that section, and the first of those blocks carries the section header. -/
theorem c5_large_section_split (cfg : CheatSheetConfig) (hks : List Hotkey)
    (i : ℕ) (name : String) (subs : List (String × List Hotkey))
    (hget : (get_sections hks).get? i = some (name, subs))
    (hitems : cfg.section_no_awkward_breaks = true →
      3 ≤ count_section_items subs)
    (hbig : 200 < estimate_section_height cfg subs) :
    (sectionBlocksAt cfg hks i).length = subs.length
    ∧ ∃ es, (sectionBlocksAt cfg hks i).head?
        = some (Block.group (Elem.header name.toUpper :: es)) := by
  have hmem : (name, subs) ∈ get_sections hks := List.get?_mem hget
  have hbuckets := get_sections_buckets_ne_nil hmem
  have hlarge : sectionBlocksAt cfg hks i = largeBlocks cfg name subs := by
    unfold sectionBlocksAt
    rw [hget]
    show sectionBlocks cfg (i == 0) name subs = _
    unfold sectionBlocks
    by_cases hflag : cfg.section_no_awkward_breaks = true
    · rw [if_pos hflag,
        if_neg (by have := hitems hflag; omega : ¬count_section_items subs < 3),
        if_pos hbig]
    · rw [if_neg hflag, if_pos hbig]
  rw [hlarge]
  cases subs with
  | nil => exact absurd rfl (get_sections_subs_ne_nil hmem)
  | cons p rest =>
      obtain ⟨t, hs⟩ := p
      have hall : ∀ es ∈ (headerElems name ++ subsectionElems cfg t hs)
          :: rest.map (fun p => subsectionElems cfg p.1 p.2), es ≠ [] := by
        intro es hes
        rcases List.mem_cons.mp hes with hes' | hes'
        · rw [hes']
          simp [headerElems]
        · obtain ⟨q, hq, hqe⟩ := List.mem_map.mp hes'
          rw [← hqe]
          exact subsectionElems_ne_nil cfg q.1
            (hbuckets q.1 q.2 (List.mem_cons_of_mem _ hq))
      have hlb : largeBlocks cfg name ((t, hs) :: rest)
          = (((headerElems name ++ subsectionElems cfg t hs)
              :: rest.map (fun p => subsectionElems cfg p.1 p.2)).map
            Block.group) := by
        unfold largeBlocks
        exact filterMap_all_some hall
      rw [hlb]
      constructor
      · simp
      · exact ⟨Elem.fixedSpacer 8 :: subsectionElems cfg t hs, by
          simp [headerElems]⟩

/-- C5 witness: a single section of 16 hotkeys in one `"General"` subsection
under the default config has estimated height 213 > 200 and 16 ≥ 3 items, so
it is emitted as exactly one atomic block (one per subsection). -/
theorem c5_large_section_split_witness :
    (sectionBlocksAt {} (List.replicate 16 ⟨"k", "d", "B", ""⟩) 0).length
      = 1 := by
  have h := c5_large_section_split {} (List.replicate 16 ⟨"k", "d", "B", ""⟩)
    0 "B" [("General", List.replicate 16 ⟨"k", "d", "B", ""⟩)]
    rfl
    (fun _ => by norm_num [count_section_items])
    (by norm_num [estimate_section_height])
  simpa using h.1

/-- C2 (amended): for every document section at position `i ≥ 1` of the
Section Index, as long as the section does not fall into the
split-by-subsection branch (`largeSplitCondition`), its emitted blocks start
with an atomic block whose first flowable is the inter-section spacer — a
conditional spacer when `section_align_flush` is enabled, otherwise a fixed
spacer of height `section_spacing`.  (In the split branch the source builds
the per-subsection blocks from scratch and drops the spacer; see the
counterexample.) -/
theorem c2_inter_section_spacer (cfg : CheatSheetConfig) (hks : List Hotkey)
    (i : ℕ) (name : String) (subs : List (String × List Hotkey))
    (hget : (get_sections hks).get? i = some (name, subs))
    (hi : 0 < i)
    (hnl : ¬largeSplitCondition cfg subs) :
    ∃ es rest, sectionBlocksAt cfg hks i
      = Block.group (interSpacerElem cfg :: es) :: rest := by
  have hmem : (name, subs) ∈ get_sections hks := List.get?_mem hget
  have hne := get_sections_subs_ne_nil hmem
  have hfirst : (i == 0) = false := by
    simp [Nat.pos_iff_ne_zero.mp hi]
  have hsb : sectionBlocksAt cfg hks i = sectionBlocks cfg false name subs := by
    unfold sectionBlocksAt
    rw [hget]
    show sectionBlocks cfg (i == 0) name subs = _
    rw [hfirst]
  have hcontent : sectionContent cfg false name subs
      = interSpacerElem cfg
          :: (headerElems name
            ++ subs.flatMap (fun p => subsectionElems cfg p.1 p.2)) := by
    simp [sectionContent]
  rw [hsb]
  unfold sectionBlocks
  by_cases hflag : cfg.section_no_awkward_breaks = true
  · rw [if_pos hflag]
    by_cases hsmall : count_section_items subs < 3
    · rw [if_pos hsmall]
      exact ⟨_, [], by rw [hcontent]⟩
    · have hb : ¬(200 < estimate_section_height cfg subs) :=
        fun hbig => hnl ⟨fun _ => by omega, hbig⟩
      rw [if_neg hsmall, if_neg hb]
      by_cases htiny : estimate_section_height cfg subs < 100
      · rw [if_pos htiny]
        exact ⟨_, [], by rw [hcontent]⟩
      · rw [if_neg htiny]
        cases subs with
        | nil => exact absurd rfl hne
        | cons p rest' =>
            exact ⟨headerElems name ++ subsectionElems cfg p.1 p.2,
              rest'.filterMap (fun q =>
                let es := subsectionElems cfg q.1 q.2
                if es.isEmpty then none else some (Block.group es)),
              by simp [mediumBlocks]⟩
  · have hb : ¬(200 < estimate_section_height cfg subs) :=
      fun hbig => hnl ⟨fun hf => absurd hf hflag, hbig⟩
    rw [if_neg hflag, if_neg hb]
    by_cases htiny : estimate_section_height cfg subs < 100
    · rw [if_pos htiny]
      exact ⟨_, [], by rw [hcontent]⟩
    · rw [if_neg htiny]
      cases subs with
      | nil => exact absurd rfl hne
      | cons p rest' =>
          exact ⟨headerElems name ++ subsectionElems cfg p.1 p.2,
            rest'.filterMap (fun q =>
              let es := subsectionElems cfg q.1 q.2
              if es.isEmpty then none else some (Block.group es)),
            by simp [mediumBlocks]⟩

/-- C2 witness: in a two-section document under the default config, the
second (small) section's first block starts with the conditional
inter-section spacer. -/
theorem c2_inter_section_spacer_witness :
    ∃ es rest,
      sectionBlocksAt {} [⟨"a", "d", "A", ""⟩, ⟨"b", "d", "B", ""⟩] 1
        = Block.group (interSpacerElem {} :: es) :: rest :=
  c2_inter_section_spacer {} [⟨"a", "d", "A", ""⟩, ⟨"b", "d", "B", ""⟩]
    1 "B" [("General", [⟨"b", "d", "B", ""⟩])] rfl (by norm_num)
    (fun hc => by
      have := hc.1 rfl
      norm_num [count_section_items] at this)

/-- C2 counterexample: a document with two sections under the default
config — section `"A"` with one hotkey and section `"B"` with 16 hotkeys
(estimated height 213 > 200, 16 ≥ 3 items).  The Section Index has two
sections, section 1 does emit content blocks, yet none of its blocks
contains the inter-section spacer (here the conditional spacer, since
`section_align_flush` is on): the claim that an inter-section spacer
precedes every non-first section "in every size branch, including sections
whose estimated height exceeds 200" is false at this input. -/
theorem c2_counterexample :
    2 ≤ (get_sections (⟨"a", "d", "A", ""⟩
        :: List.replicate 16 ⟨"k", "d", "B", ""⟩)).length
    ∧ sectionBlocksAt {} (⟨"a", "d", "A", ""⟩
        :: List.replicate 16 ⟨"k", "d", "B", ""⟩) 1 ≠ []
    ∧ (sectionBlocksAt {} (⟨"a", "d", "A", ""⟩
        :: List.replicate 16 ⟨"k", "d", "B", ""⟩) 1).any
        (blockHasElem (interSpacerElem {})) = false := by
  have hget : (get_sections (⟨"a", "d", "A", ""⟩
      :: List.replicate 16 ⟨"k", "d", "B", ""⟩)).get? 1
      = some ("B", [("General", List.replicate 16 ⟨"k", "d", "B", ""⟩)]) :=
    rfl
  have hsb : sectionBlocksAt {} (⟨"a", "d", "A", ""⟩
      :: List.replicate 16 ⟨"k", "d", "B", ""⟩) 1
      = largeBlocks {} "B"
          [("General", List.replicate 16 ⟨"k", "d", "B", ""⟩)] := by
    unfold sectionBlocksAt
    rw [hget]
    show sectionBlocks {} (1 == 0) "B"
        [("General", List.replicate 16 ⟨"k", "d", "B", ""⟩)] = _
    unfold sectionBlocks
    rw [if_pos rfl,
      if_neg (by norm_num [count_section_items]),
      if_pos (by norm_num [estimate_section_height])]
  have hlb : largeBlocks {} "B"
      [("General", List.replicate 16 ⟨"k", "d", "B", ""⟩)]
      = [Block.group (headerElems "B"
          ++ subsectionElems {} "General"
              (List.replicate 16 ⟨"k", "d", "B", ""⟩))] := by
    simp [largeBlocks, headerElems, subsectionElems]
  refine ⟨by rfl, ?_, ?_⟩
  · rw [hsb, hlb]
    simp
  · rw [hsb, hlb]
    simp [blockHasElem, headerElems, subsectionElems, interSpacerElem]

/-- C3 (amended): constructing a `CheatSheetConfig` from a configuration
mapping succeeds and binds exactly the recognized option names, silently
ignoring every key that is not a class attribute — provided the mapping
contains no key that is a class attribute without being a dataclass field
(such as `"from_dict"` itself or the inherited dunder names); such a key
survives the `hasattr` filter and makes the constructor call fail (see the
counterexample). -/
theorem c3_from_dict_ignores_unknown (data : List ConfigEntry)
    (hsafe : ∀ e ∈ data, e.isOther = true → e.key ∉ classAttrNames) :
    from_dict data
      = some ((data.filter (fun e => !e.isOther)).foldl applyEntry {}) := by
  unfold from_dict
  have hkept : data.filter (fun e => decide (e.key ∈ classAttrNames))
      = data.filter (fun e => !e.isOther) := by
    apply List.filter_congr
    intro e he
    cases hcase : e.isOther with
    | true => simp [hsafe e he hcase]
    | false =>
        have hmem : e.key ∈ classAttrNames := by
          cases e
          case other => simp [ConfigEntry.isOther] at hcase
          all_goals simp only [ConfigEntry.key]
          all_goals decide
        simp [hmem]
  rw [hkept]
  have hnone : ((data.filter (fun e => !e.isOther)).any
      (fun e => e.isOther)) = false := by
    rw [List.any_eq_false]
    intro e he
    have := (List.mem_filter.mp he).2
    simpa using this
  simp [hnone]

/-- C3 witness: a mapping with one recognized option and one unknown key is
accepted; only the recognized option is bound. -/
theorem c3_from_dict_ignores_unknown_witness :
    from_dict [ConfigEntry.font_size 9, ConfigEntry.other "bogus"]
      = some ((([ConfigEntry.font_size 9, ConfigEntry.other "bogus"]).filter
          (fun e => !e.isOther)).foldl applyEntry {}) :=
  c3_from_dict_ignores_unknown
    [ConfigEntry.font_size 9, ConfigEntry.other "bogus"] (by decide)

/-- C3 counterexample: the key `"from_dict"` is not a recognized option, yet
it is a class attribute, so `hasattr(cls, k)` keeps it and the constructor
call `cls(**kwargs)` fails with a `TypeError` — construction from the
mapping `{"from_dict": ...}` does not succeed, contradicting the claim that
every unrecognized key is silently ignored and never causes an error. -/
theorem c3_counterexample :
    from_dict [ConfigEntry.other "from_dict"] = none := by
  rfl
